import Mathlib

/-!
Verification of the humboldt PIV library core (src/piv.c) against its
natural-language specification.  The C source is shallowly embedded: pure
computations become Lean functions, card I/O is modelled by explicit
oracles (lists of status words / reply segments supplied as arguments),
and external crypto primitives (libssh ciphers, digests, EC keys) are
modelled as abstract structures whose correctness properties appear as
hypotheses of the theorems.
-/

namespace Humboldt

/-- POSIX-style error results used by the C functions (`return (0)` is
`EOK`; nonzero errno values keep their names).  Only the identity of the
code matters to the claims, not its numeric value. -/
inductive Errno where
  | EOK | EIO | ENOMEM | EACCES | EAGAIN | EINVAL | ENOENT | ENOTSUP | EPERM | EBADMSG
deriving DecidableEq, Repr

/-! ### Wire constants

The numeric constants come from `piv.h`, which is not part of the sources
under scrutiny; they are modelled from the spec's bit-exact wire-constant
table (spec section 6) and the ISO 7816 values it references. -/

/-- Modelled from the spec: ISO class byte for plain commands (vendor probe
uses "CLA=0"). -/
def CLA_ISO : Nat := 0x00

/-- Modelled from the spec: the CLA "chain" bit used for command chaining
(ISO 7816-4 command chaining control, bit 4 of CLA). -/
def CLA_CHAIN : Nat := 0x10

/-- Modelled from the spec: `CONTINUE=C0` (GET RESPONSE). -/
def INS_CONTINUE : Nat := 0xC0

/-- Modelled from the spec: `VERIFY=20`. -/
def INS_VERIFY : Nat := 0x20

/-- Modelled from the spec: success status word 9000 (high byte 0x90). -/
def SW_NO_ERROR : Nat := 0x9000

/-- Modelled from the spec: bytes-remaining status 61xx. -/
def SW_BYTES_REMAINING_00 : Nat := 0x6100

/-- Modelled from the spec: warning status 62xx. -/
def SW_WARNING_NO_CHANGE_00 : Nat := 0x6200

/-- Modelled from the spec: warning status 63xx. -/
def SW_WARNING_00 : Nat := 0x6300

/-- Modelled from the spec: incorrect-PIN status 63Cx (low nibble holds the
remaining retry count). -/
def SW_INCORRECT_PIN : Nat := 0x63C0

/-- Modelled from the spec: PIV algorithm identifier RSA1024=06. -/
def PIV_ALG_RSA1024 : Nat := 0x06

/-- Modelled from the spec: PIV algorithm identifier RSA2048=07. -/
def PIV_ALG_RSA2048 : Nat := 0x07

/-- Modelled from the spec: PIV algorithm identifier ECCP256=11. -/
def PIV_ALG_ECCP256 : Nat := 0x11

/-- Modelled from the spec: PIV algorithm identifier ECCP384=14. -/
def PIV_ALG_ECCP384 : Nat := 0x14

/-- Modelled from the spec: PIV algorithm identifier ECCP256_SHA1=F0. -/
def PIV_ALG_ECCP256_SHA1 : Nat := 0xF0

/-- Modelled from the spec: PIV algorithm identifier ECCP256_SHA256=F2. -/
def PIV_ALG_ECCP256_SHA256 : Nat := 0xF2

/-- Modelled from the spec: PIV slot ids 9A/9C/9D/9E. -/
def PIV_SLOT_9A : Nat := 0x9A

/-- Modelled from the spec: PIV slot 9C. -/
def PIV_SLOT_9C : Nat := 0x9C

/-- Modelled from the spec: PIV slot 9D. -/
def PIV_SLOT_9D : Nat := 0x9D

/-- Modelled from the spec: PIV slot 9E. -/
def PIV_SLOT_9E : Nat := 0x9E

/-! ### piv_read_all_certs (piv.c:1160-1181) -/

/-- The per-slot results that do NOT abort `piv_read_all_certs`
(`rv != 0 && rv != ENOENT && rv != ENOTSUP` aborts). -/
def readCertContinues (e : Errno) : Bool :=
  e == .EOK || e == .ENOENT || e == .ENOTSUP

/-- Embeds `piv_read_all_certs`.  `readCert` is the card oracle giving the
result of `piv_read_cert` on each slot.  Returns the list of slots on which
`piv_read_cert` was invoked, in order, together with the returned `rv`. -/
def piv_read_all_certs (readCert : Nat → Errno) : List Nat × Errno :=
  let r1 := readCert PIV_SLOT_9E
  if !readCertContinues r1 then ([PIV_SLOT_9E], r1)
  else
    let r2 := readCert PIV_SLOT_9A
    if !readCertContinues r2 then ([PIV_SLOT_9E, PIV_SLOT_9A], r2)
    else
      let r3 := readCert PIV_SLOT_9C
      if !readCertContinues r3 then ([PIV_SLOT_9E, PIV_SLOT_9A, PIV_SLOT_9C], r3)
      else
        let r4 := readCert PIV_SLOT_9D
        ([PIV_SLOT_9E, PIV_SLOT_9A, PIV_SLOT_9C, PIV_SLOT_9D], r4)

/-! ### piv_sign (piv.c:1311-1453)

The libssh digest primitives are external; a digest oracle
`hashFn : SshDigest → List Nat → List Nat` stands for `ssh_digest_*`, and
`ssh_digest_final(hctx, buf, dglen)` writing `dglen` bytes is modelled by
`(hashFn h data).take dglen`. -/

/-- The `enum sshdigest_types` members used by `piv_sign`. -/
inductive SshDigest where
  | sha1 | sha256 | sha384 | sha512
deriving DecidableEq, Repr

/-- DER bytes of the SHA-256 OID 2.16.840.1.101.3.4.2.1 (the content octets
of `OBJ_nid2obj(NID_sha256)`). -/
def sha256OID : List Nat := [0x60, 0x86, 0x48, 0x01, 0x65, 0x03, 0x04, 0x02, 0x01]

/-- The DER encoding produced by `i2d_X509_SIG` for the `digestInfo` built
in piv.c:1403-1427: `SEQUENCE { SEQUENCE { OID sha256, NULL }, OCTET STRING
digest }` (definite short-form lengths; the digest is at most 48 bytes). -/
def digestInfoDER (digest : List Nat) : List Nat :=
  [0x30, 17 + digest.length, 0x30, 0x0D, 0x06, 0x09] ++ sha256OID ++
    [0x05, 0x00, 0x04, digest.length] ++ digest

/-- A decoder for `digestInfoDER`, used to state that the DigestInfo in the
RSA signing block parses back to the SHA-256 OID and the digest. -/
def parseDigestInfo (l : List Nat) : Option (List Nat × List Nat) :=
  match l with
  | 0x30 :: l1 :: 0x30 :: 0x0D :: 0x06 :: 0x09 :: rest =>
    let oid := rest.take 9
    match rest.drop 9 with
    | 0x05 :: 0x00 :: 0x04 :: dlen :: rest2 =>
      if l1 == 17 + dlen && rest2.length == dlen then some (oid, rest2) else none
    | _ => none
  | _ => none

/-- The PKCS#1 v1.5 block assembly of piv.c:1433-1438: the `inplen`-byte
buffer is filled with 0xFF (`memset`), then `buf[0]=0x00`, `buf[1]=0x01`,
`buf[inplen-nread-1]=0x00`, and the DigestInfo `di` (`nread = di.length`
bytes) is copied to the tail (`bcopy(out, buf + (inplen - nread), nread)`). -/
def rsaPadBlock (inplen : Nat) (di : List Nat) : List Nat :=
  let b := (((List.replicate inplen 0xFF).set 0 0x00).set 1 0x01).set
    (inplen - di.length - 1) 0x00
  b.take (inplen - di.length) ++ di

/-- One iteration of the on-card-hash scan (piv.c:1352-1364).  The state is
`(cardhash, oldalg, ps_alg)`; `oldalg` is read from the CURRENT `ps_alg`
at each match, which is what makes duplicate advertisements interesting. -/
def cardhashStep (h : SshDigest) (st : Bool × Nat × Nat) (a : Nat) : Bool × Nat × Nat :=
  let (ch, old, cur) := st
  if a == PIV_ALG_ECCP256_SHA1 && h == .sha1 then
    (true, cur, PIV_ALG_ECCP256_SHA1)
  else if a == PIV_ALG_ECCP256_SHA256 && h == .sha256 then
    (true, cur, PIV_ALG_ECCP256_SHA256)
  else (ch, old, cur)

/-- Outcome of `piv_sign` up to (and including) the arguments it hands to
`piv_sign_prehash`, plus the slot state after return. -/
structure SignOut where
  /-- the hash written back through the `hashalgo` out-parameter -/
  hashalgo : SshDigest
  /-- the digest length chosen -/
  dglen : Nat
  /-- whether the hash-on-card variant was selected -/
  cardhash : Bool
  /-- `slot->ps_alg` during the GENERAL AUTHENTICATE call -/
  algDuring : Nat
  /-- `slot->ps_alg` after `piv_sign` returns -/
  algAfter : Nat
  /-- the `buf`/`inplen` block handed to `piv_sign_prehash` -/
  challenge : List Nat
  /-- the value returned by `piv_sign` -/
  rv : Errno
deriving DecidableEq, Repr

/-- Embeds `piv_sign` (piv.c:1311-1453).  `ptAlgs` is the token's
`pt_algs[0..pt_alg_count)`; `slotAlg` is `slot->ps_alg` on entry; `reqHash`
is `*hashalgo` on entry; `prehashRv` is the result of the inner
`piv_sign_prehash` call (card oracle).  Returns `none` on the
`default: assert(0)` branch for unsupported slot algorithms. -/
def piv_sign (hashFn : SshDigest → List Nat → List Nat) (ptAlgs : List Nat)
    (slotAlg : Nat) (data : List Nat) (reqHash : SshDigest) (prehashRv : Errno) :
    Option SignOut :=
  if slotAlg == PIV_ALG_RSA1024 || slotAlg == PIV_ALG_RSA2048 then
    let inplen := if slotAlg == PIV_ALG_RSA1024 then 128 else 256
    let hd : SshDigest × Nat :=
      if reqHash == .sha1 then (.sha1, 20) else (.sha256, 32)
    let digest := (hashFn hd.1 data).take hd.2
    some { hashalgo := hd.1, dglen := hd.2, cardhash := false,
           algDuring := slotAlg, algAfter := slotAlg,
           challenge := rsaPadBlock inplen (digestInfoDER digest),
           rv := prehashRv }
  else if slotAlg == PIV_ALG_ECCP256 then
    let hd : SshDigest × Nat :=
      if reqHash == .sha1 then (.sha1, 20) else (.sha256, 32)
    let scan := ptAlgs.foldl (cardhashStep hd.1) (false, 0, slotAlg)
    if scan.1 then
      some { hashalgo := hd.1, dglen := hd.2, cardhash := true,
             algDuring := scan.2.2, algAfter := scan.2.1,
             challenge := data, rv := prehashRv }
    else
      some { hashalgo := hd.1, dglen := hd.2, cardhash := false,
             algDuring := slotAlg, algAfter := slotAlg,
             challenge := (hashFn hd.1 data).take hd.2 ++
               List.replicate (32 - hd.2) 0,
             rv := prehashRv }
  else if slotAlg == PIV_ALG_ECCP384 then
    some { hashalgo := .sha384, dglen := 48, cardhash := false,
           algDuring := slotAlg, algAfter := slotAlg,
           challenge := (hashFn .sha384 data).take 48, rv := prehashRv }
  else none

/-! ### piv_verify_pin (piv.c:1234-1309)

Card replies are supplied as oracles: `swQuery` answers the data-less
VERIFY of the preflight, `swPin` answers the PIN-carrying VERIFY (used only
when that APDU is actually transmitted). -/

/-- The header fields of a transmitted command APDU, plus the length of its
command data block (`none` for a case-1 APDU with no data). -/
structure ApduHdr where
  cla : Nat
  ins : Nat
  p1 : Nat
  p2 : Nat
  dataLen : Option Nat
deriving DecidableEq, Repr

/-- The data-less VERIFY APDU issued by the preflight (piv.c:1250). -/
def pinQueryApdu : ApduHdr :=
  { cla := CLA_ISO, ins := INS_VERIFY, p1 := 0x00, p2 := 0x80, dataLen := none }

/-- The PIN-carrying VERIFY APDU (piv.c:1276-1278, 8-byte padded PIN). -/
def pinSubmitApdu : ApduHdr :=
  { cla := CLA_ISO, ins := INS_VERIFY, p1 := 0x00, p2 := 0x80, dataLen := some 8 }

/-- Result of `piv_verify_pin`: the APDUs transmitted, the returned `rv`,
and the final value of `*retries`. -/
structure VerifyPinOut where
  apdus : List ApduHdr
  rv : Errno
  retriesOut : Option Nat
deriving DecidableEq, Repr

/-- Embeds `piv_verify_pin` (piv.c:1234-1309).  `retries` models the
`retries` pointer (`none` = NULL pointer, `some r` = points at value `r`). -/
def piv_verify_pin (retries : Option Nat) (swQuery swPin : Nat) : VerifyPinOut :=
  let early : Option Errno :=
    match retries with
    | some r =>
      if r > 0 then
        if (swQuery &&& 0xFFF0) == SW_INCORRECT_PIN then
          if (swQuery &&& 0x000F) ≤ r then some .EAGAIN else none
        else some .EINVAL
      else none
    | none => none
  match early with
  | some e => { apdus := [pinQueryApdu], rv := e, retriesOut := retries }
  | none =>
    let fl : Bool := match retries with
      | some r => r > 0
      | none => false
    let sent := if fl then [pinQueryApdu, pinSubmitApdu] else [pinSubmitApdu]
    if swPin == SW_NO_ERROR then
      { apdus := sent, rv := .EOK, retriesOut := retries }
    else if (swPin &&& 0xFFF0) == SW_INCORRECT_PIN then
      { apdus := sent, rv := .EACCES,
        retriesOut := if retries.isSome then some (swPin &&& 0x000F) else none }
    else
      { apdus := sent, rv := .EINVAL, retriesOut := retries }

/-! ### piv_apdu_transceive_chain (piv.c:397-460)

`piv_apdu_transceive` is the card transmit primitive; its observable effect
per call is a status word and a reply-segment length.  The command phase
consumes one status word per transmitted slice; the response phase consumes
one `(statusWord, segmentLength)` pair per GET RESPONSE. -/

/-- Is this status word high byte 0x90/0x61/0x62/0x63?  This is the
"continue" test of piv.c:420-423 (`(a_sw & 0xFF00) == SW_NO_ERROR || ...`). -/
def swContinues (sw : Nat) : Bool :=
  (sw &&& 0xFF00) == (SW_NO_ERROR &&& 0xFF00) ||
  (sw &&& 0xFF00) == SW_BYTES_REMAINING_00 ||
  (sw &&& 0xFF00) == SW_WARNING_NO_CHANGE_00 ||
  (sw &&& 0xFF00) == SW_WARNING_00

/-- The command phase of `piv_apdu_transceive_chain` (piv.c:407-433).
`rem` is the bytes of command data left, `curSw` the current `a_sw`, `sws`
the card's status-word oracle (one per transmitted slice).  Returns the
transmitted slices as `(chainBitSet, sliceLength)` pairs together with the
final `a_sw`; `none` models running out of oracle answers. -/
def chainCmdLoop (rem curSw : Nat) (sws : List Nat) :
    Option (List (Bool × Nat) × Nat) :=
  if _hr : rem = 0 then some ([], curSw)
  else
    match sws with
    | [] => none
    | sw :: rest =>
      let chain := decide (rem > 0xFF)
      let slice := if rem > 0xFF then 0xFF else rem
      if swContinues sw then
        (chainCmdLoop (rem - slice) sw rest).map
          (fun p => ((chain, slice) :: p.1, p.2))
      else
        some ([(chain, slice)], sw)
termination_by rem
decreasing_by
  split
  · omega
  · omega

/-- The response phase of `piv_apdu_transceive_chain` (piv.c:441-453).
State is `(b_offset, b_len, a_sw)`; `oracle` answers each GET RESPONSE
with a `(statusWord, segmentLength)` pair.  Returns the final state plus
the headers of the APDUs issued by the loop, each built from the
assignments of piv.c:442-446 (`a_cls = CLA_ISO; a_ins = INS_CONTINUE;
a_p1 = 0; a_p2 = 0; a_cmd.b_data = NULL`). -/
def chainRespLoop (off len sw : Nat) (oracle : List (Nat × Nat)) :
    Option (Nat × Nat × Nat × List ApduHdr) :=
  if (sw &&& 0xFF00) == SW_BYTES_REMAINING_00 then
    match oracle with
    | [] => none
    | (sw1, len1) :: rest =>
      (chainRespLoop (off + len) len1 sw1 rest).map
        (fun r => (r.1, r.2.1, r.2.2.1,
          { cla := CLA_ISO, ins := INS_CONTINUE, p1 := 0, p2 := 0,
            dataLen := none } :: r.2.2.2))
  else
    some (off, len, sw, [])

/-- The GET RESPONSE APDU header as assigned in piv.c:442-446. -/
def getResponseApdu : ApduHdr :=
  { cla := CLA_ISO, ins := INS_CONTINUE, p1 := 0, p2 := 0, dataLen := none }

/-- The whole of `piv_apdu_transceive_chain` after the command phase:
runs the GET RESPONSE loop from reply state `(off0, len0)` and applies the
final fix-up of piv.c:456-457 (`b_len += b_offset - offset;
b_offset = offset`).  Returns `((b_offset, b_len, a_sw), issuedApdus)`. -/
def chainRespFinal (off0 len0 sw0 : Nat) (oracle : List (Nat × Nat)) :
    Option ((Nat × Nat × Nat) × List ApduHdr) :=
  (chainRespLoop off0 len0 sw0 oracle).map
    (fun r => ((off0, r.2.1 + (r.1 - off0), r.2.2.1), r.2.2.2))

/-! ### Sealed boxes: crypto model (piv.c:1654-1981)

The libssh cipher/digest library and OpenSSL EC arithmetic are external
black boxes.  A named symmetric cipher is modelled by a `Cipher` record
(its `cipher_keylen/ivlen/blocksize/authlen` table entries plus abstract
AEAD encrypt/decrypt on byte lists, where the ciphertext carries the
`authlen`-byte tag at its end and decryption returns `none` on tag
failure); a KDF digest by a `Kdf` record; EC keys by abstract types with a
`pubOf` map and a raw-X-coordinate `ecdh` function.  `cipher_by_name` /
`ssh_digest_alg_by_name` become lookup functions in a `CryptoLib`. -/

/-- An entry of the external cipher table: lengths plus AEAD encrypt and
decrypt (arguments: key, iv, plaintext resp. ciphertext-with-tag). -/
structure Cipher where
  keylen : Nat
  ivlen : Nat
  blocksz : Nat
  authlen : Nat
  enc : List Nat → List Nat → List Nat → List Nat
  dec : List Nat → List Nat → List Nat → Option (List Nat)

/-- An external KDF digest: output length and digest function. -/
structure Kdf where
  dglen : Nat
  digest : List Nat → List Nat

/-- The external crypto library's named lookups (`cipher_by_name`,
`ssh_digest_alg_by_name` + `ssh_digest_bytes`/`ssh_digest_start`). -/
structure CryptoLib where
  cipherByName : String → Option Cipher
  kdfByName : String → Option Kdf

/-- An abstract EC group: `S` = private keys, `P` = public keys, `pubOf`
the public key of a private key, `ecdh` the raw shared-secret X coordinate
(`ECDH_compute_key`). -/
structure EcGroup (S P : Type) where
  pubOf : S → P
  ecdh : S → P → List Nat

/-- `struct piv_ecdh_box` (crypto view, keys abstract). -/
structure EcdhBox (P : Type) where
  guid : List Nat
  slot : Nat
  ephemPub : Option P
  pub : Option P
  cipherName : Option String
  kdfName : Option String
  iv : List Nat
  enc : List Nat
  plain : Option (List Nat)
deriving DecidableEq

/-- `piv_box_new` (piv.c:1654-1660): a zeroed box. -/
def piv_box_new : EcdhBox P :=
  { guid := List.replicate 16 0, slot := 0, ephemPub := none, pub := none,
    cipherName := none, kdfName := none, iv := [], enc := [], plain := none }

/-- `piv_box_set_data` (piv.c:1680-1695): stores a copy of the plaintext;
the `VERIFY3P(box->pdb_plain.b_data, ==, NULL)` assertion is the `none`
case. -/
def piv_box_set_data (box : EcdhBox P) (data : List Nat) : Option (EcdhBox P) :=
  match box.plain with
  | some _ => none
  | none => some { box with plain := some data }

/-- Outcome of a box crypto operation: success, an errno return, or a
`VERIFY*` assertion failure (which in C aborts the process and returns
nothing to the caller). -/
inductive CryptoOutcome (P : Type) where
  | ok (box : EcdhBox P)
  | err (e : Errno)
  | abort
deriving DecidableEq

/-- The trailing pad bytes written by piv.c:1939-1940
(`plain[i] = ++j & 0xFF`): the sequence 1, 2, 3, ... (mod 256). -/
def padBytes (n : Nat) : List Nat :=
  (List.range n).map (fun j => (j + 1) % 256)

/-- The padding step of `piv_box_seal_offline` (piv.c:1931-1942): plaintext
already a multiple of the block size is used as-is, otherwise it is
extended to the next block boundary with `padBytes`. -/
def sealPad (blocksz : Nat) (plain : List Nat) : List Nat :=
  if plain.length % blocksz == 0 then plain
  else plain ++ padBytes (blocksz - plain.length % blocksz)

/-- Embeds `piv_box_seal_offline` (piv.c:1863-1965).  The randomness is
passed in: `ephem` is the fresh ephemeral private key from
`sshkey_generate`, `ivRand` the `arc4random_buf` IV bytes.  `none` models
a `VERIFY*` abort. -/
def piv_box_seal_offline (lib : CryptoLib) (ec : EcGroup S P) (ephem : S)
    (ivRand : List Nat) (pubk : P) (box : EcdhBox P) : Option (EcdhBox P) :=
  let cname := box.cipherName.getD "chacha20-poly1305"
  let kname := box.kdfName.getD "sha512"
  match lib.cipherByName cname, lib.kdfByName kname with
  | some c, some k =>
    if k.dglen < c.keylen then none
    else
      let sec := ec.ecdh ephem pubk
      if sec.length == 0 then none
      else
        let key := (k.digest sec).take c.keylen
        match box.plain with
        | none => none
        | some plain0 =>
          if plain0.length == 0 then none
          else
            let padded := sealPad c.blocksz plain0
            let ct := c.enc key ivRand padded
            some { box with
                    cipherName := some cname
                    kdfName := some kname
                    ephemPub := some (ec.pubOf ephem)
                    pub := some pubk
                    iv := ivRand
                    enc := ct
                    plain := none }
  | _, _ => none

/-- Embeds `piv_box_open_offline` (piv.c:1711-1783).  Note that the
`cipher_crypt` call there sits under `VERIFY0`, so a decryption (tag)
failure is an assertion abort, not an error return. -/
def piv_box_open_offline (lib : CryptoLib) (ec : EcGroup S P) (priv : S)
    (box : EcdhBox P) : CryptoOutcome P :=
  match box.cipherName, box.kdfName with
  | some cname, some kname =>
    match lib.cipherByName cname, lib.kdfByName kname with
    | some c, some k =>
      if k.dglen < c.keylen then .abort
      else
        match box.ephemPub with
        | none => .abort
        | some epub =>
          let sec := ec.ecdh priv epub
          if sec.length == 0 then .abort
          else
            let key := (k.digest sec).take c.keylen
            if box.iv.length != c.ivlen then .abort
            else if box.enc.length < c.authlen + c.blocksz then .abort
            else
              match c.dec key box.iv box.enc with
              | some p => .ok { box with plain := some p }
              | none => .abort
    | _, _ => .abort
  | _, _ => .abort

/-- Embeds `piv_box_open` (piv.c:1785-1861), the card-backed unseal.
`cardSec` is the result of the `piv_ecdh` card call (errno or the shared
secret).  Here the `cipher_crypt` result IS checked: failure returns
`EBADMSG` (piv.c:1845-1854). -/
def piv_box_open (lib : CryptoLib) (cardSec : Except Errno (List Nat))
    (box : EcdhBox P) : CryptoOutcome P :=
  match box.cipherName, box.kdfName with
  | some cname, some kname =>
    match lib.cipherByName cname, lib.kdfByName kname with
    | some c, some k =>
      if k.dglen < c.keylen then .abort
      else
        match box.ephemPub with
        | none => .abort
        | some _ =>
          match cardSec with
          | .error e => .err e
          | .ok sec =>
            let key := (k.digest sec).take c.keylen
            if box.iv.length != c.ivlen then .abort
            else if box.enc.length < c.authlen + c.blocksz then .abort
            else
              match c.dec key box.iv box.enc with
              | some p => .ok { box with plain := some p }
              | none => .err .EBADMSG
    | _, _ => .abort
  | _, _ => .abort

/-- Projection used to state results about the decrypted plaintext. -/
def CryptoOutcome.plainOf : CryptoOutcome P → Option (List Nat)
  | .ok b => b.plain
  | _ => none

/-- Did the operation return the given errno? -/
def CryptoOutcome.isErr : CryptoOutcome P → Errno → Bool
  | .err e, e2 => e == e2
  | _, _ => false

/-- Did the operation die on a `VERIFY*` assertion? -/
def CryptoOutcome.isAbort : CryptoOutcome P → Bool
  | .abort => true
  | _ => false

/-! ### Sealed boxes: serialization (piv.c:2042-2181)

`sshbuf` is the external length-prefixed wire format: `put_u8` appends one
byte, `put_string`/`put_stringb` append a big-endian 32-bit length then
the bytes, `put_cstring` does the same for a NUL-terminated C string.
`sshkey_putb`/`sshkey_fromb` (the SSH wire form of a public key) are
external; they are modelled by a `KeyCodec` pair of abstract
encode/decode functions. -/

/-- Big-endian 32-bit length, as `sshbuf_put_string` writes it. -/
def u32be (n : Nat) : List Nat :=
  [n / 2 ^ 24 % 256, n / 2 ^ 16 % 256, n / 2 ^ 8 % 256, n % 256]

/-- `sshbuf_put_string`: 32-bit big-endian length then the bytes. -/
def putString (s : List Nat) : List Nat := u32be s.length ++ s

/-- `sshbuf_get_u8`. -/
def getU8 (l : List Nat) : Option (Nat × List Nat) :=
  match l with
  | b :: rest => some (b, rest)
  | [] => none

/-- `sshbuf_get_string`: read a 32-bit big-endian length, then that many
bytes; fails if the buffer is short. -/
def getString (l : List Nat) : Option (List Nat × List Nat) :=
  match l with
  | b0 :: b1 :: b2 :: b3 :: rest =>
    let n := ((b0 * 256 + b1) * 256 + b2) * 256 + b3
    if n ≤ rest.length then some (rest.take n, rest.drop n) else none
  | _ => none

/-- `sshbuf_get_cstring`: like `getString` but rejects a NUL byte anywhere
before the final position of the string. -/
def getCString (l : List Nat) : Option (List Nat × List Nat) :=
  match getString l with
  | some (s, rest) =>
    if s.dropLast.contains 0 then none else some (s, rest)
  | none => none

/-- External SSH public-key wire codec (`sshkey_putb` / `sshkey_fromb`). -/
structure KeyCodec (K : Type) where
  put : K → List Nat
  get : List Nat → Option K

/-- `struct piv_ecdh_box` (wire view): the fields serialized by
`piv_box_to_binary`.  Keys have the abstract type `K`. -/
structure EcdhBoxWire (K : Type) where
  guid : List Nat
  slot : Nat
  ephemPub : K
  pub : K
  cipherName : List Nat
  kdfName : List Nat
  iv : List Nat
  enc : List Nat
deriving DecidableEq, Repr

/-- Embeds `piv_box_to_binary` (piv.c:2042-2077): version u8 (always 1),
GUID string, slot u8, ephemeral public key string, recipient public key
string, cipher cstring, KDF cstring, IV string, ciphertext string. -/
def piv_box_to_binary (kc : KeyCodec K) (b : EcdhBoxWire K) : List Nat :=
  [1] ++ putString b.guid ++ [b.slot % 256] ++
  putString (kc.put b.ephemPub) ++ putString (kc.put b.pub) ++
  putString b.cipherName ++ putString b.kdfName ++
  putString b.iv ++ putString b.enc

/-- Embeds `piv_box_from_binary` (piv.c:2079-2181).  Version must be 1
(`ENOTSUP` otherwise), the GUID string must be exactly 16 bytes, each
parse failure is `EINVAL`. -/
def piv_box_from_binary (kc : KeyCodec K) (input : List Nat) :
    Except Errno (EcdhBoxWire K) :=
  match getU8 input with
  | none => .error .EINVAL
  | some (ver, r1) =>
    if ver ≠ 1 then .error .ENOTSUP
    else
      match getString r1 with
      | none => .error .EINVAL
      | some (guid, r2) =>
        if guid.length ≠ 16 then .error .EINVAL
        else
          match getU8 r2 with
          | none => .error .EINVAL
          | some (slot, r3) =>
            match getString r3 with
            | none => .error .EINVAL
            | some (eblob, r4) =>
              match kc.get eblob with
              | none => .error .EINVAL
              | some ekey =>
                match getString r4 with
                | none => .error .EINVAL
                | some (pblob, r5) =>
                  match kc.get pblob with
                  | none => .error .EINVAL
                  | some pkey =>
                    match getCString r5 with
                    | none => .error .EINVAL
                    | some (cname, r6) =>
                      match getCString r6 with
                      | none => .error .EINVAL
                      | some (kname, r7) =>
                        match getString r7 with
                        | none => .error .EINVAL
                        | some (iv, r8) =>
                          match getString r8 with
                          | none => .error .EINVAL
                          | some (enc, _) =>
                            .ok { guid := guid, slot := slot,
                                  ephemPub := ekey, pub := pkey,
                                  cipherName := cname, kdfName := kname,
                                  iv := iv, enc := enc }

/-! ### Auxiliary definitions for the claims -/

/-- The on-card-hash variant that matches a given effective hash in the
scan of piv.c:1352-1364 (`none` when no variant can match). -/
def hashVariant : SshDigest → Option Nat
  | .sha1 => some PIV_ALG_ECCP256_SHA1
  | .sha256 => some PIV_ALG_ECCP256_SHA256
  | _ => none

/-- A toy stream-shaped AEAD cipher (block size 1, no tag), used to
instantiate theorems whose cipher is universally quantified. -/
def cexCipherStream : Cipher :=
  { keylen := 4, ivlen := 0, blocksz := 1, authlen := 0,
    enc := fun _ _ p => p, dec := fun _ _ ct => some ct }

/-- A toy AEAD cipher with block size 2 and a 2-byte tag `[7, 7]`;
decryption checks the tag and fails on mismatch. -/
def cexCipherBlk2 : Cipher :=
  { keylen := 4, ivlen := 3, blocksz := 2, authlen := 2,
    enc := fun _ _ p => p ++ [7, 7],
    dec := fun _ _ ct =>
      if ct.drop (ct.length - 2) = [7, 7] then some (ct.take (ct.length - 2))
      else none }

/-- A toy KDF of output length 4. -/
def cexKdf : Kdf :=
  { dglen := 4, digest := fun sec => (sec ++ [0, 0, 0, 0]).take 4 }

/-- A toy commutative EC group on naturals (`ecdh s p = [s * p % 256]`,
never empty). -/
def cexEc : EcGroup Nat Nat :=
  { pubOf := fun s => s, ecdh := fun s p => [s * p % 256] }

/-- A crypto library exposing the two toy ciphers and the toy KDF. -/
def cexLib : CryptoLib :=
  { cipherByName := fun n =>
      if n = "toy-stream" then some cexCipherStream
      else if n = "toy-blk2" then some cexCipherBlk2
      else none,
    kdfByName := fun n => if n = "toy-kdf" then some cexKdf else none }

/-- The seal-then-open-offline round trip on the block-size-2 cipher with
the 1-byte plaintext `[42]` (recipient private key 5, ephemeral key 3):
the concrete run refuting claim C1 as stated. -/
def c1CexRun : Option (List Nat) :=
  match piv_box_set_data
      { piv_box_new with cipherName := some "toy-blk2", kdfName := some "toy-kdf" }
      [42] with
  | none => none
  | some b =>
    match piv_box_seal_offline cexLib cexEc 3 [1, 2, 3] (cexEc.pubOf 5) b with
    | none => none
    | some sealed => (piv_box_open_offline cexLib cexEc 5 sealed).plainOf

/-- A sealed box whose ciphertext carries a wrong AEAD tag (`[3, 9]`
instead of `[7, 7]`), so `cipher_crypt` reports a tag failure on unseal. -/
def c2CexBox : EcdhBox Nat :=
  { guid := List.replicate 16 0, slot := 0x9D, ephemPub := some 3,
    pub := some 5, cipherName := some "toy-blk2", kdfName := some "toy-kdf",
    iv := [9, 9, 9], enc := [1, 2, 3, 9], plain := none }

/-- A fresh box configured for the toy stream cipher, for the C1 witness. -/
def c1WitnessBox0 : EcdhBox Nat :=
  { piv_box_new with cipherName := some "toy-stream", kdfName := some "toy-kdf" }

/-- The identity key codec (keys represented by their own wire blobs),
used to instantiate the serialization round-trip theorem. -/
def idKeyCodec : KeyCodec (List Nat) :=
  { put := fun k => k, get := fun l => some l }

/-- A concrete wire box for the serialization witness. -/
def c7WitnessBox : EcdhBoxWire (List Nat) :=
  { guid := List.replicate 16 9, slot := 0x9D, ephemPub := [4, 4],
    pub := [5, 5], cipherName := [99, 104], kdfName := [107],
    iv := [1, 2], enc := [3, 4, 5] }

/-! ## Theorems -/

/-! ### Helper lemmas -/

/-- Bit `i` of the mask 0xFF00. -/
theorem testBit_FF00 (i : Nat) :
    Nat.testBit 65280 i = (decide (8 ≤ i) && decide (i < 16)) := by
  have h : (65280 : Nat) = 255 <<< 8 := by norm_num [Nat.shiftLeft_eq]
  rw [h, Nat.testBit_shiftLeft]
  rcases le_or_lt 8 i with hi | hi
  · have h255 : (255 : Nat) = 2 ^ 8 - 1 := by norm_num
    rw [h255, Nat.testBit_two_pow_sub_one]
    simp [hi]
    omega
  · simp [Nat.not_le.mpr hi]

/-- For a 16-bit status word, masking with 0xFF00 isolates the high byte:
`sw &&& 0xFF00 = (sw / 0x100) * 0x100`. -/
theorem and_FF00_div (n : Nat) (hn : n < 65536) : n &&& 65280 = n / 256 * 256 := by
  apply Nat.eq_of_testBit_eq
  intro i
  rw [Nat.testBit_and, testBit_FF00]
  have hdiv : n / 256 * 256 = (n >>> 8) <<< 8 := by
    norm_num [Nat.shiftLeft_eq, Nat.shiftRight_eq_div_pow]
  rw [hdiv, Nat.testBit_shiftLeft, Nat.testBit_shiftRight]
  rcases le_or_lt 8 i with hi | hi
  · rcases le_or_lt 16 i with h16 | h16
    · have hb : n.testBit i = false := Nat.testBit_lt_two_pow (by
        calc n < 65536 := hn
        _ ≤ 2 ^ i := by
          have he : (65536 : Nat) = 2 ^ 16 := by norm_num
          rw [he]
          exact Nat.pow_le_pow_right (by norm_num) h16)
      have h2 : n.testBit (8 + (i - 8)) = false := by
        rwa [show 8 + (i - 8) = i by omega]
      simp [hb, h2, hi, Nat.not_lt.mpr h16]
    · have h2 : 8 + (i - 8) = i := by omega
      rw [h2]
      simp [hi, h16]
  · simp [Nat.not_le.mpr hi]

/-! ### Claim C10 -/

/-- Claim C10: `piv_read_all_certs` reads the slots in the fixed order
9E, 9A, 9C, 9D; a per-slot result of ENOENT or ENOTSUP does not stop the
remaining slots from being read; any other non-zero result aborts
immediately and is returned; when no abort occurs the return value is the
result of the final 9D read (so it can be ENOENT or ENOTSUP even though
earlier slots were read successfully). -/
theorem claim_C10 (f : Nat → Errno) :
    (readCertContinues (f PIV_SLOT_9E) = true →
     readCertContinues (f PIV_SLOT_9A) = true →
     readCertContinues (f PIV_SLOT_9C) = true →
     piv_read_all_certs f =
       ([PIV_SLOT_9E, PIV_SLOT_9A, PIV_SLOT_9C, PIV_SLOT_9D], f PIV_SLOT_9D)) ∧
    (readCertContinues (f PIV_SLOT_9E) = false →
     piv_read_all_certs f = ([PIV_SLOT_9E], f PIV_SLOT_9E)) ∧
    (readCertContinues (f PIV_SLOT_9E) = true →
     readCertContinues (f PIV_SLOT_9A) = false →
     piv_read_all_certs f = ([PIV_SLOT_9E, PIV_SLOT_9A], f PIV_SLOT_9A)) ∧
    (readCertContinues (f PIV_SLOT_9E) = true →
     readCertContinues (f PIV_SLOT_9A) = true →
     readCertContinues (f PIV_SLOT_9C) = false →
     piv_read_all_certs f =
       ([PIV_SLOT_9E, PIV_SLOT_9A, PIV_SLOT_9C], f PIV_SLOT_9C)) := by
  refine ⟨fun h1 h2 h3 => ?_, fun h1 => ?_, fun h1 h2 => ?_, fun h1 h2 h3 => ?_⟩ <;>
    simp [piv_read_all_certs, *]

/-- Witness for C10: with 9E/9A/9C present and 9D absent, all four slots
are read and the function returns ENOENT. -/
theorem claim_C10_witness :
    piv_read_all_certs
        (fun s => if s == PIV_SLOT_9D then Errno.ENOENT else Errno.EOK) =
      ([PIV_SLOT_9E, PIV_SLOT_9A, PIV_SLOT_9C, PIV_SLOT_9D], Errno.ENOENT) :=
  (claim_C10 (fun s => if s == PIV_SLOT_9D then Errno.ENOENT else Errno.EOK)).1
    (by decide) (by decide) (by decide)

/-- Mapping over an if-then-else of `some`s. -/
theorem map_ite_some {α β : Type} (c : Prop) [Decidable c] (r1 r2 : α) (f : α → β) :
    (if c then some r1 else some r2).map f =
      if c then some (f r1) else some (f r2) := by
  split <;> rfl

/-! ### Claim C5 -/

/-- Claim C5: in `piv_sign`, on an RSA-1024/RSA-2048/ECC-P256 slot a
requested hash of SHA-1 is kept (digest length 20) and any other request
is coerced to SHA-256 (digest length 32); on an ECC-P384 slot the
effective hash is always SHA-384 (digest length 48); the coerced value is
what comes back through the `hashalgo` out-parameter. -/
theorem claim_C5 (hashFn : SshDigest → List Nat → List Nat) (ptAlgs : List Nat)
    (data : List Nat) (prehashRv : Errno) (reqHash : SshDigest) (slotAlg : Nat)
    (hslot : slotAlg = PIV_ALG_RSA1024 ∨ slotAlg = PIV_ALG_RSA2048 ∨
      slotAlg = PIV_ALG_ECCP256) :
    ((piv_sign hashFn ptAlgs slotAlg data reqHash prehashRv).map
        (fun o => (o.hashalgo, o.dglen)) =
      some (if reqHash = .sha1 then (.sha1, 20) else (.sha256, 32))) ∧
    ∀ rq : SshDigest, (piv_sign hashFn ptAlgs PIV_ALG_ECCP384 data rq prehashRv).map
        (fun o => (o.hashalgo, o.dglen)) = some (.sha384, 48) := by
  constructor
  · rcases hslot with h | h | h <;> subst h <;> cases reqHash <;>
      simp [piv_sign, map_ite_some, PIV_ALG_RSA1024, PIV_ALG_RSA2048,
        PIV_ALG_ECCP256]
  · intro rq
    cases rq <;> simp [piv_sign, PIV_ALG_ECCP384, PIV_ALG_RSA1024, PIV_ALG_RSA2048,
      PIV_ALG_ECCP256]

/-- Witness for C5: an RSA-1024 slot coerces a SHA-384 request to SHA-256
with digest length 32, and an ECC-P384 slot forces SHA-384/48. -/
theorem claim_C5_witness :
    ((piv_sign (fun _ _ => []) [] 0x06 [] SshDigest.sha384 .EOK).map
        (fun o => (o.hashalgo, o.dglen)) = some (.sha256, 32)) ∧
    ((piv_sign (fun _ _ => []) [] PIV_ALG_ECCP384 [] SshDigest.sha1 .EOK).map
        (fun o => (o.hashalgo, o.dglen)) = some (.sha384, 48)) :=
  ⟨by simpa using
      (claim_C5 (fun _ _ => []) [] [] .EOK .sha384 0x06 (Or.inl rfl)).1,
   (claim_C5 (fun _ _ => []) [] [] .EOK .sha384 0x06 (Or.inl rfl)).2 .sha1⟩

/-! ### Claim C8 -/

/-- Claim C8: with preflight enabled (non-null `retries` pointer holding a
positive value), `piv_verify_pin` first queries the retry count with a
data-less VERIFY APDU; when only one try remains it returns (EAGAIN)
without ever transmitting the PIN-carrying VERIFY APDU; the PIN APDU is
transmitted only when the query reported more than one remaining try. -/
theorem claim_C8 (r swQuery swPin : Nat) (hr : 0 < r) :
    ((swQuery &&& 0xFFF0) = SW_INCORRECT_PIN → (swQuery &&& 0x000F) = 1 →
      piv_verify_pin (some r) swQuery swPin =
        { apdus := [pinQueryApdu], rv := .EAGAIN, retriesOut := some r }) ∧
    (pinSubmitApdu ∈ (piv_verify_pin (some r) swQuery swPin).apdus →
      (swQuery &&& 0xFFF0) = SW_INCORRECT_PIN ∧ 1 < (swQuery &&& 0x000F)) := by
  constructor
  · intro h1 h2
    have h1r : 1 ≤ r := hr
    simp [piv_verify_pin, h1, h2, hr, h1r]
  · intro hmem
    by_cases hm : (swQuery &&& 0xFFF0) = SW_INCORRECT_PIN
    · by_cases hn : (swQuery &&& 0x000F) ≤ r
      · simp [piv_verify_pin, hm, hn, hr, pinSubmitApdu, pinQueryApdu] at hmem
      · refine ⟨hm, ?_⟩
        omega
    · simp [piv_verify_pin, hm, hr, pinSubmitApdu, pinQueryApdu] at hmem

/-- Witness for C8: with `*retries = 3` and the card reporting 63C1 (one
try left) to the preflight query, only the data-less VERIFY is sent and
EAGAIN is returned. -/
theorem claim_C8_witness :
    piv_verify_pin (some 3) 0x63C1 0x9000 =
      { apdus := [pinQueryApdu], rv := .EAGAIN, retriesOut := some 3 } :=
  (claim_C8 3 0x63C1 0x9000 (by decide)).1 (by decide) (by decide)

/-! ### Claim C9 -/

/-- One scan step, rephrased: a matching entry sets
`(cardhash, oldalg, ps_alg) := (true, ps_alg, variant)`, any other entry
leaves the state alone. -/
theorem cardhashStep_eq (h : SshDigest) (v : Nat) (hv : hashVariant h = some v)
    (st : Bool × Nat × Nat) (a : Nat) :
    cardhashStep h st a = if a = v then (true, st.2.2, v) else st := by
  obtain ⟨ch, old, cur⟩ := st
  cases h with
  | sha1 =>
    simp only [hashVariant, Option.some.injEq] at hv
    subst hv
    by_cases ha : a = PIV_ALG_ECCP256_SHA1 <;>
      simp [cardhashStep, ha, PIV_ALG_ECCP256_SHA1, PIV_ALG_ECCP256_SHA256]
  | sha256 =>
    simp only [hashVariant, Option.some.injEq] at hv
    subst hv
    by_cases ha : a = PIV_ALG_ECCP256_SHA256 <;>
      simp [cardhashStep, ha, PIV_ALG_ECCP256_SHA1, PIV_ALG_ECCP256_SHA256]
  | sha384 => simp [hashVariant] at hv
  | sha512 => simp [hashVariant] at hv

/-- A scan over a list without the matching variant is the identity. -/
theorem foldl_cardhashStep_nomatch (h : SshDigest) (v : Nat)
    (hv : hashVariant h = some v) (l : List Nat) (hl : v ∉ l)
    (st : Bool × Nat × Nat) : l.foldl (cardhashStep h) st = st := by
  induction l generalizing st with
  | nil => rfl
  | cons a t ih =>
    rw [List.mem_cons, not_or] at hl
    rw [List.foldl_cons, cardhashStep_eq h v hv,
      if_neg (fun hav => hl.1 hav.symm), ih hl.2]

/-- A scan over a list holding the matching variant exactly once ends in
`(true, originalAlg, variant)`: `oldalg` really is the original algorithm. -/
theorem foldl_cardhashStep_once (h : SshDigest) (v : Nat)
    (hv : hashVariant h = some v) (l1 l2 : List Nat) (h1 : v ∉ l1)
    (h2 : v ∉ l2) (o0 alg : Nat) :
    (l1 ++ v :: l2).foldl (cardhashStep h) (false, o0, alg) = (true, alg, v) := by
  rw [List.foldl_append, foldl_cardhashStep_nomatch h v hv l1 h1,
    List.foldl_cons, cardhashStep_eq h v hv, if_pos rfl,
    foldl_cardhashStep_nomatch h v hv l2 h2]

/-- Claim C9 (amended): when the token advertises the on-card-hash variant
matching the effective hash EXACTLY ONCE, `piv_sign` on an ECC-P256 slot
selects it: the algorithm used for GENERAL AUTHENTICATE is the variant,
the raw message (not a digest) is the challenge, and `slot->ps_alg` is
back to ECCP256 on return, whatever `piv_sign_prehash` returned.  (With
duplicate advertisements the restore fails; see the counterexample.) -/
theorem claim_C9_amended (hashFn : SshDigest → List Nat → List Nat)
    (data : List Nat) (prehashRv : Errno) (reqHash : SshDigest)
    (l1 l2 : List Nat) (v : Nat)
    (hv : hashVariant (if reqHash = .sha1 then .sha1 else .sha256) = some v)
    (h1 : v ∉ l1) (h2 : v ∉ l2) :
    piv_sign hashFn (l1 ++ v :: l2) PIV_ALG_ECCP256 data reqHash prehashRv =
      some { hashalgo := if reqHash = .sha1 then .sha1 else .sha256,
             dglen := if reqHash = .sha1 then 20 else 32,
             cardhash := true, algDuring := v, algAfter := PIV_ALG_ECCP256,
             challenge := data, rv := prehashRv } := by
  by_cases hr : reqHash = .sha1
  · subst hr
    have hv1 : hashVariant .sha1 = some v := by simpa using hv
    have hfold := foldl_cardhashStep_once .sha1 v hv1 l1 l2 h1 h2 0 PIV_ALG_ECCP256
    simp only [PIV_ALG_ECCP256, List.foldl_append, List.foldl_cons] at hfold
    simp [piv_sign, PIV_ALG_ECCP256, PIV_ALG_RSA1024, PIV_ALG_RSA2048, hfold]
  · have hv2 : hashVariant .sha256 = some v := by
      rw [if_neg hr] at hv
      exact hv
    have hfold := foldl_cardhashStep_once .sha256 v hv2 l1 l2 h1 h2 0 PIV_ALG_ECCP256
    simp only [PIV_ALG_ECCP256, List.foldl_append, List.foldl_cons] at hfold
    have hbeq : (reqHash == SshDigest.sha1) = false := by
      simpa using hr
    simp [piv_sign, PIV_ALG_ECCP256, PIV_ALG_RSA1024, PIV_ALG_RSA2048, hfold,
      hbeq, hr]

/-- Counterexample for C9 as stated: a token whose algorithm list contains
the matching variant TWICE.  The scan overwrites `oldalg` with the
already-swapped value, so after `piv_sign` returns, `slot->ps_alg` is the
variant (0xF2), not the original ECCP256 (0x11): the algorithm is not
restored. -/
theorem claim_C9_counterexample :
    ((piv_sign (fun _ _ => []) [PIV_ALG_ECCP256_SHA256, PIV_ALG_ECCP256_SHA256]
        PIV_ALG_ECCP256 [1, 2] .sha256 .EOK).map
      (fun o => (o.cardhash, o.algAfter)) =
        some (true, PIV_ALG_ECCP256_SHA256)) ∧
    PIV_ALG_ECCP256_SHA256 ≠ PIV_ALG_ECCP256 := by decide

/-- Witness for C9 (amended): a token advertising `[RSA2048, ECCP256_SHA256]`
(the variant once), a SHA-256 request on an ECC-P256 slot, and an erroring
prehash call: the variant is used, the raw data is the challenge, and the
slot algorithm is ECCP256 again on return. -/
theorem claim_C9_witness :
    piv_sign (fun _ _ => []) [PIV_ALG_RSA2048, PIV_ALG_ECCP256_SHA256]
        PIV_ALG_ECCP256 [9] .sha256 .ENOTSUP =
      some { hashalgo := .sha256, dglen := 32, cardhash := true,
             algDuring := PIV_ALG_ECCP256_SHA256, algAfter := PIV_ALG_ECCP256,
             challenge := [9], rv := .ENOTSUP } := by
  have h := claim_C9_amended (fun _ _ => []) [9] .ENOTSUP .sha256
    [PIV_ALG_RSA2048] [] PIV_ALG_ECCP256_SHA256 (by decide) (by decide)
    (by decide)
  simpa using h

/-! ### Claim C3 -/

/-- Claim C3: in the command-chaining loop, the "continue" statuses are
exactly those with high byte 0x90, 0x61, 0x62 or 0x63; on any other status
word the current slice is the last one transmitted and that status word is
what the caller observes; on a continue status the next slice is processed
(recursively, with the chain bit set iff more than 0xFF bytes remain). -/
theorem claim_C3 (rem curSw sw : Nat) (rest : List Nat) (hrem : 0 < rem)
    (hsw : sw < 65536) :
    (swContinues sw = true ↔
      (sw / 256 = 0x90 ∨ sw / 256 = 0x61 ∨ sw / 256 = 0x62 ∨
        sw / 256 = 0x63)) ∧
    (swContinues sw = false →
      chainCmdLoop rem curSw (sw :: rest) =
        some ([(decide (rem > 0xFF), if rem > 0xFF then 0xFF else rem)], sw)) ∧
    (swContinues sw = true → 0xFF < rem →
      chainCmdLoop rem curSw (sw :: rest) =
        (chainCmdLoop (rem - 0xFF) sw rest).map
          (fun p => ((true, 0xFF) :: p.1, p.2))) ∧
    (swContinues sw = true → rem ≤ 0xFF →
      chainCmdLoop rem curSw (sw :: rest) = some ([(false, rem)], sw)) := by
  have hm := and_FF00_div sw hsw
  have hrem0 : ¬ rem = 0 := by omega
  refine ⟨?_, fun hcont => ?_, fun hcont hbig => ?_, fun hcont hsmall => ?_⟩
  · have hconst : (36864 : Nat) &&& 65280 = 36864 := by decide
    simp only [swContinues, SW_NO_ERROR, SW_BYTES_REMAINING_00,
      SW_WARNING_NO_CHANGE_00, SW_WARNING_00, hm, hconst, Bool.or_eq_true,
      beq_iff_eq]
    omega
  · rw [chainCmdLoop]
    simp [hrem0, hcont]
  · rw [chainCmdLoop]
    simp [hrem0, hcont, hbig]
  · rw [chainCmdLoop]
    have hno : ¬ rem > 0xFF := by omega
    simp [hrem0, hcont, hno]
    rw [chainCmdLoop.eq_def]
    simp

/-- Witness for C3: with 300 bytes remaining and the card answering
0x6A80 (wrong data), exactly one more slice is sent (with the chain bit,
255 bytes) and 0x6A80 is the observed status word. -/
theorem claim_C3_witness :
    swContinues 0x6A80 = false ∧
    chainCmdLoop 300 0 [0x6A80] = some ([(true, 0xFF)], 0x6A80) :=
  ⟨by decide, by
    have h := (claim_C3 300 0 0x6A80 [] (by decide) (by decide)).2.1 (by decide)
    simpa using h⟩

/-! ### Claim C4 -/

/-- Running the GET RESPONSE loop when every oracle reply but the last has
high byte 0x61: all replies are consumed, the offset advances over every
segment, the final segment length and status are kept, and one GET
RESPONSE APDU (of the fixed shape) is issued per reply. -/
theorem chainRespLoop_run (segs : List (Nat × Nat)) (last : Nat × Nat)
    (off len sw : Nat)
    (hsw : sw &&& 0xFF00 = 0x6100)
    (hsegs : ∀ p ∈ segs, p.1 &&& 0xFF00 = 0x6100)
    (hlast : ¬ (last.1 &&& 0xFF00 = 0x6100)) :
    chainRespLoop off len sw (segs ++ [last]) =
      some (off + len + (segs.map Prod.snd).sum, last.2, last.1,
        List.replicate (segs.length + 1) getResponseApdu) := by
  induction segs generalizing off len sw with
  | nil =>
    obtain ⟨lsw, llen⟩ := last
    simp only [List.nil_append]
    rw [chainRespLoop, if_pos (by simp [SW_BYTES_REMAINING_00, hsw])]
    rw [chainRespLoop, if_neg (by simpa [SW_BYTES_REMAINING_00] using hlast)]
    simp [getResponseApdu]
  | cons p t ih =>
    obtain ⟨psw, plen⟩ := p
    have hp : psw &&& 0xFF00 = 0x6100 := hsegs (psw, plen) (List.mem_cons_self _ _)
    have ht : ∀ q ∈ t, q.1 &&& 0xFF00 = 0x6100 :=
      fun q hq => hsegs q (List.mem_cons_of_mem _ hq)
    simp only [List.cons_append]
    rw [chainRespLoop, if_pos (by simp [SW_BYTES_REMAINING_00, hsw])]
    rw [ih (off + len) plen psw hp ht]
    simp only [Option.map_some, List.map_cons, List.sum_cons, List.length_cons,
      List.replicate_succ]
    have harith : off + len + plen + (t.map Prod.snd).sum =
        off + len + (plen + (t.map Prod.snd).sum) := by omega
    rw [harith]
    simp [getResponseApdu]

/-- Claim C4: after the final command slice, while the status word has
high byte 0x61 a GET RESPONSE APDU (CLA 0x00, INS 0xC0, P1=0, P2=0, no
command data) is issued repeatedly and each reply segment is appended; on
completion the APDU reply `(offset, length)` spans the concatenation of
all received segments (the final slice's own segment plus every
continuation segment), with the offset restored to its value before
chaining. -/
theorem claim_C4 (off0 len0 sw0 : Nat) (segs : List (Nat × Nat))
    (last : Nat × Nat)
    (hsw0 : sw0 &&& 0xFF00 = 0x6100)
    (hsegs : ∀ p ∈ segs, p.1 &&& 0xFF00 = 0x6100)
    (hlast : ¬ (last.1 &&& 0xFF00 = 0x6100)) :
    chainRespFinal off0 len0 sw0 (segs ++ [last]) =
      some ((off0, len0 + (segs.map Prod.snd).sum + last.2, last.1),
        List.replicate (segs.length + 1) getResponseApdu) := by
  rw [chainRespFinal, chainRespLoop_run segs last off0 len0 sw0 hsw0 hsegs hlast]
  have harith : last.2 + (off0 + len0 + (segs.map Prod.snd).sum - off0) =
      len0 + (segs.map Prod.snd).sum + last.2 := by omega
  simp [harith]

/-- Witness for C4: final slice reply of 10 bytes at offset 7, one 0x6100
continuation of 200 bytes, then 0x9000 with 30 bytes: the caller sees
`(offset, length) = (7, 240)`, status 0x9000, after two GET RESPONSEs. -/
theorem claim_C4_witness :
    chainRespFinal 7 10 0x6120 [(0x6100, 200), (0x9000, 30)] =
      some ((7, 240, 0x9000), List.replicate 2 getResponseApdu) := by
  have h := claim_C4 7 10 0x6120 [(0x6100, 200)] (0x9000, 30)
    (by decide) (by decide) (by decide)
  simpa using h

/-! ### Claim C2 -/

/-- Claim C2 (amended): when AEAD decryption reports a tag failure, the
card-backed `piv_box_open` returns EBADMSG to the caller; the offline
`piv_box_open_offline`, whose `cipher_crypt` call sits under `VERIFY0`,
instead dies on an assertion (abort) and never returns EBADMSG. -/
theorem claim_C2_amended {S P : Type} (lib : CryptoLib) (ec : EcGroup S P)
    (c : Cipher) (k : Kdf) (cname kname : String)
    (hc : lib.cipherByName cname = some c) (hk : lib.kdfByName kname = some k)
    (hkl : c.keylen ≤ k.dglen)
    (box : EcdhBox P) (hbc : box.cipherName = some cname)
    (hbk : box.kdfName = some kname)
    (epub : P) (heph : box.ephemPub = some epub)
    (hiv : box.iv.length = c.ivlen)
    (hlen : c.authlen + c.blocksz ≤ box.enc.length)
    (priv : S) (cardSec : List Nat) :
    (c.dec ((k.digest cardSec).take c.keylen) box.iv box.enc = none →
      piv_box_open lib (.ok cardSec) box = .err .EBADMSG) ∧
    (c.dec ((k.digest (ec.ecdh priv epub)).take c.keylen) box.iv box.enc =
        none →
      ec.ecdh priv epub ≠ [] →
      piv_box_open_offline lib ec priv box = .abort) := by
  have hnl : ¬ (k.dglen < c.keylen) := Nat.not_lt.mpr hkl
  have hnlen : ¬ (box.enc.length < c.authlen + c.blocksz) := Nat.not_lt.mpr hlen
  constructor
  · intro hdec
    simp [piv_box_open, hbc, hbk, hc, hk, hnl, heph, hiv, hdec, hnlen]
  · intro hdec hsec
    have hsl : ((ec.ecdh priv epub).length == 0) = false := by
      simp [List.length_eq_zero]
      exact hsec
    simp [piv_box_open_offline, hbc, hbk, hc, hk, hnl, heph, hiv, hdec, hsl,
      hnlen]

/-- Counterexample for C2 as stated: on a box whose ciphertext carries a
bad tag, the toy cipher's decryption fails, and the OFFLINE unseal path
aborts on the `VERIFY0` assertion instead of returning EBADMSG. -/
theorem claim_C2_counterexample :
    cexCipherBlk2.dec
        ((cexKdf.digest (cexEc.ecdh 5 3)).take cexCipherBlk2.keylen)
        c2CexBox.iv c2CexBox.enc = none ∧
    piv_box_open_offline cexLib cexEc 5 c2CexBox = .abort ∧
    (CryptoOutcome.abort : CryptoOutcome Nat) ≠ .err .EBADMSG := by
  refine ⟨by decide, by decide, by decide⟩

/-- Witness for C2 (amended): on the bad-tag box the card-backed unseal
returns EBADMSG while the offline unseal aborts. -/
theorem claim_C2_witness :
    piv_box_open cexLib (.ok [15]) c2CexBox = .err .EBADMSG ∧
    piv_box_open_offline cexLib cexEc 5 c2CexBox = .abort := by
  have h := claim_C2_amended cexLib cexEc cexCipherBlk2 cexKdf
    "toy-blk2" "toy-kdf" rfl rfl (by decide) c2CexBox
    rfl rfl 3 rfl (by decide) (by decide) 5 [15]
  exact ⟨h.1 (by decide), h.2 (by decide) (by decide)⟩

/-! ### Claim C1 -/

/-- The padding step in closed form: the plaintext is followed by
`(blocksz - len % blocksz) % blocksz` counting pad bytes. -/
theorem sealPad_eq (bs : Nat) (hbs : 0 < bs) (p : List Nat) :
    sealPad bs p = p ++ padBytes ((bs - p.length % bs) % bs) := by
  unfold sealPad
  by_cases h : p.length % bs = 0
  · simp [h, padBytes, Nat.sub_zero, Nat.mod_self]
  · have hlt : p.length % bs < bs := Nat.mod_lt _ hbs
    have heq : (bs - p.length % bs) % bs = bs - p.length % bs :=
      Nat.mod_eq_of_lt (by omega)
    simp [h, heq]

/-- A padded nonempty plaintext is at least one block long. -/
theorem sealPad_length_ge (bs : Nat) (hbs : 0 < bs) (p : List Nat)
    (hp : p ≠ []) : bs ≤ (sealPad bs p).length := by
  unfold sealPad
  by_cases h : p.length % bs = 0
  · simp only [h, beq_self_eq_true, if_pos]
    have hpl : 0 < p.length := List.length_pos.mpr hp
    exact Nat.le_of_dvd hpl (Nat.dvd_of_mod_eq_zero h)
  · have hlt : p.length % bs < bs := Nat.mod_lt _ hbs
    have h2 : p.length % bs ≤ p.length := Nat.mod_le _ _
    simp [h, padBytes]
    omega

/-- Claim C1 (amended): sealing offline and opening offline with the
matching private key recovers the plaintext EXTENDED TO THE NEXT BLOCK
BOUNDARY with the counting pad bytes 1, 2, 3, ...; the recovered buffer
equals the original plaintext exactly when the plaintext length is a
multiple of the cipher's block size (in particular always when the block
size is 1).  The cipher may be any AEAD-correct entry of the library, the
KDF any digest at least as long as the cipher key, and the EC pair any
pair whose ECDH agrees in both directions. -/
theorem claim_C1_amended {S P : Type} (lib : CryptoLib) (ec : EcGroup S P)
    (c : Cipher) (k : Kdf) (cname kname : String)
    (hc : lib.cipherByName cname = some c) (hk : lib.kdfByName kname = some k)
    (hkl : c.keylen ≤ k.dglen) (hbs : 0 < c.blocksz)
    (henc : ∀ key iv p, (c.enc key iv p).length = p.length + c.authlen)
    (hdec : ∀ key iv p, c.dec key iv (c.enc key iv p) = some p)
    (ephem priv : S)
    (hcomm : ec.ecdh priv (ec.pubOf ephem) = ec.ecdh ephem (ec.pubOf priv))
    (hsec : ec.ecdh ephem (ec.pubOf priv) ≠ [])
    (ivRand : List Nat) (hiv : ivRand.length = c.ivlen)
    (plain0 : List Nat) (hp : plain0 ≠ [])
    (box0 : EcdhBox P) (hbc : box0.cipherName = some cname)
    (hbk : box0.kdfName = some kname) (hbp : box0.plain = none) :
    ∃ sealed : EcdhBox P,
      piv_box_set_data box0 plain0 = some { box0 with plain := some plain0 } ∧
      piv_box_seal_offline lib ec ephem ivRand (ec.pubOf priv)
        { box0 with plain := some plain0 } = some sealed ∧
      (piv_box_open_offline lib ec priv sealed).plainOf =
        some (plain0 ++
          padBytes ((c.blocksz - plain0.length % c.blocksz) % c.blocksz)) ∧
      (plain0.length % c.blocksz = 0 →
        (piv_box_open_offline lib ec priv sealed).plainOf = some plain0) := by
  have hnl : ¬ (k.dglen < c.keylen) := Nat.not_lt.mpr hkl
  have hsl : ((ec.ecdh ephem (ec.pubOf priv)).length == 0) = false := by
    simp [List.length_eq_zero]
    exact hsec
  have hpl : (plain0.length == 0) = false := by
    simp [List.length_eq_zero]
    exact hp
  refine ⟨{ box0 with
      cipherName := some cname
      kdfName := some kname
      ephemPub := some (ec.pubOf ephem)
      pub := some (ec.pubOf priv)
      iv := ivRand
      enc := c.enc ((k.digest (ec.ecdh ephem (ec.pubOf priv))).take c.keylen)
        ivRand (sealPad c.blocksz plain0)
      plain := none }, ?_, ?_, ?_, ?_⟩
  · rw [piv_box_set_data, hbp]
  · rw [piv_box_seal_offline]
    simp [hbc, hbk, hc, hk, hnl, hsl, hpl]
  · rw [piv_box_open_offline]
    simp only [hc, hk]
    have hlen : ¬ ((c.enc ((k.digest (ec.ecdh ephem (ec.pubOf priv))).take
        c.keylen) ivRand (sealPad c.blocksz plain0)).length <
          c.authlen + c.blocksz) := by
      rw [henc]
      have := sealPad_length_ge c.blocksz hbs plain0 hp
      omega
    rw [hcomm, if_neg hnl, if_neg (by simp [hsl]), if_neg (by simp [hiv]),
      if_neg hlen, hdec]
    simp [CryptoOutcome.plainOf, sealPad_eq c.blocksz hbs plain0]
  · intro h0
    rw [piv_box_open_offline]
    simp only [hc, hk]
    have hlen : ¬ ((c.enc ((k.digest (ec.ecdh ephem (ec.pubOf priv))).take
        c.keylen) ivRand (sealPad c.blocksz plain0)).length <
          c.authlen + c.blocksz) := by
      rw [henc]
      have := sealPad_length_ge c.blocksz hbs plain0 hp
      omega
    rw [hcomm, if_neg hnl, if_neg (by simp [hsl]), if_neg (by simp [hiv]),
      if_neg hlen, hdec]
    simp [CryptoOutcome.plainOf, sealPad, h0]

/-- Counterexample for C1 as stated: with the (AEAD-correct) block-size-2
cipher and the 1-byte plaintext `[42]`, the seal-then-open-offline round
trip yields `[42, 1]` — the original byte followed by the pad byte that
the unseal path cannot remove — not `[42]`. -/
theorem claim_C1_counterexample :
    c1CexRun = some [42, 1] ∧ some [42, 1] ≠ some [42] := by
  refine ⟨by decide, by decide⟩

/-- Witness for C1 (amended): on the stream-shaped cipher (block size 1)
the pad is empty and the round trip returns the original plaintext
`[7, 8]` exactly. -/
theorem claim_C1_witness :
    ∃ sealed : EcdhBox Nat,
      piv_box_set_data c1WitnessBox0 [7, 8] =
        some { c1WitnessBox0 with plain := some [7, 8] } ∧
      piv_box_seal_offline cexLib cexEc 3 [] (cexEc.pubOf 5)
        { c1WitnessBox0 with plain := some [7, 8] } = some sealed ∧
      (piv_box_open_offline cexLib cexEc 5 sealed).plainOf =
        some ([7, 8] ++ padBytes ((cexCipherStream.blocksz -
          [7, 8].length % cexCipherStream.blocksz) %
            cexCipherStream.blocksz)) ∧
      ([7, 8].length % cexCipherStream.blocksz = 0 →
        (piv_box_open_offline cexLib cexEc 5 sealed).plainOf =
          some [7, 8]) :=
  claim_C1_amended cexLib cexEc cexCipherStream cexKdf "toy-stream" "toy-kdf"
    rfl rfl (by decide) (by decide)
    (fun key iv p => by simp [cexCipherStream])
    (fun key iv p => rfl)
    3 5 rfl (by decide) [] rfl [7, 8] (by decide) c1WitnessBox0 rfl rfl rfl

/-! ### Claim C7 -/

/-- Reading back a length-prefixed string: `getString` inverts
`putString` (for lengths that fit the 32-bit prefix), leaving the rest of
the buffer. -/
theorem getString_putString (s rest : List Nat) (h : s.length < 2 ^ 32) :
    getString (putString s ++ rest) = some (s, rest) := by
  have hd : ((s.length / 2 ^ 24 % 256 * 256 + s.length / 2 ^ 16 % 256) * 256 +
      s.length / 2 ^ 8 % 256) * 256 + s.length % 256 = s.length := by omega
  simp only [putString, u32be, List.cons_append, List.nil_append,
    List.append_assoc, getString]
  rw [hd, if_pos (by simp), List.take_left, List.drop_left]

/-- Reading back a length-prefixed C string with no NUL byte. -/
theorem getCString_putString (s rest : List Nat) (h : s.length < 2 ^ 32)
    (hz : 0 ∉ s) : getCString (putString s ++ rest) = some (s, rest) := by
  rw [getCString, getString_putString s rest h]
  have hnm : 0 ∉ s.dropLast := fun hmem => hz ((List.dropLast_sublist s).mem hmem)
  simp [hnm]

/-- Claim C7: serializing a sealed box with `piv_box_to_binary` and
deserializing with `piv_box_from_binary` preserves every field — in
particular the version byte (1), the 16-byte GUID and the slot id — and
the serialized byte order is: version u8, GUID string, slot u8, ephemeral
public key string, recipient public key string, cipher cstring, KDF
cstring, IV string, ciphertext string (32-bit big-endian length
prefixes). -/
theorem claim_C7 {K : Type} (kc : KeyCodec K) (b : EcdhBoxWire K)
    (hguid : b.guid.length = 16) (hslot : b.slot < 256)
    (hek : kc.get (kc.put b.ephemPub) = some b.ephemPub)
    (hpk : kc.get (kc.put b.pub) = some b.pub)
    (hcz : 0 ∉ b.cipherName) (hkz : 0 ∉ b.kdfName)
    (hel : (kc.put b.ephemPub).length < 2 ^ 32)
    (hpl : (kc.put b.pub).length < 2 ^ 32)
    (hcl : b.cipherName.length < 2 ^ 32) (hkl : b.kdfName.length < 2 ^ 32)
    (hil : b.iv.length < 2 ^ 32) (hnl : b.enc.length < 2 ^ 32) :
    piv_box_from_binary kc (piv_box_to_binary kc b) = .ok b ∧
    piv_box_to_binary kc b =
      [1] ++ putString b.guid ++ [b.slot] ++ putString (kc.put b.ephemPub) ++
      putString (kc.put b.pub) ++ putString b.cipherName ++
      putString b.kdfName ++ putString b.iv ++ putString b.enc := by
  constructor
  · rw [piv_box_to_binary, piv_box_from_binary]
    simp only [List.cons_append, List.append_assoc, List.nil_append, getU8]
    rw [if_neg (by decide)]
    rw [getString_putString _ _ (by omega)]
    simp only [hguid]
    rw [if_neg (by decide)]
    have hlast := getString_putString b.enc [] hnl
    rw [List.append_nil] at hlast
    simp only [getString_putString _ _ hel, hek,
      getString_putString _ _ hpl, hpk,
      getCString_putString _ _ hcl hcz,
      getCString_putString _ _ hkl hkz,
      getString_putString _ _ hil, hlast]
    simp [Nat.mod_eq_of_lt hslot]
  · rw [piv_box_to_binary, Nat.mod_eq_of_lt hslot]

/-- Witness for C7: a concrete box (16-byte GUID, slot 0x9D) round-trips
through the wire format with every field preserved. -/
theorem claim_C7_witness :
    piv_box_from_binary idKeyCodec (piv_box_to_binary idKeyCodec c7WitnessBox) =
      .ok c7WitnessBox ∧
    piv_box_to_binary idKeyCodec c7WitnessBox =
      [1] ++ putString c7WitnessBox.guid ++ [c7WitnessBox.slot] ++
      putString (idKeyCodec.put c7WitnessBox.ephemPub) ++
      putString (idKeyCodec.put c7WitnessBox.pub) ++
      putString c7WitnessBox.cipherName ++ putString c7WitnessBox.kdfName ++
      putString c7WitnessBox.iv ++ putString c7WitnessBox.enc :=
  claim_C7 idKeyCodec c7WitnessBox (by decide) (by decide) rfl rfl
    (by decide) (by decide) (by decide) (by decide) (by decide) (by decide)
    (by decide) (by decide)

/-! ### Claim C6 -/

/-- The block built by piv.c:1433-1438 in closed form: `00 01`, all-0xFF
padding, a single `00` separator, then the DigestInfo. -/
theorem rsaPadBlock_eq (inplen : Nat) (di : List Nat)
    (h : di.length + 3 ≤ inplen) :
    rsaPadBlock inplen di =
      [0x00, 0x01] ++ List.replicate (inplen - di.length - 3) 0xFF ++
        [0x00] ++ di := by
  have hAB : ((((List.replicate inplen 0xFF).set 0 0x00).set 1 0x01).set
      (inplen - di.length - 1) 0x00).take (inplen - di.length) =
      [0x00, 0x01] ++ (List.replicate (inplen - di.length - 3) 0xFF ++
        [0x00]) := by
    apply List.ext_getElem
    · simp
      omega
    · intro i h1 h2
      simp only [List.length_take, List.length_set, List.length_replicate,
        lt_inf_iff, inf_le_iff, List.length_append] at h1
      simp only [List.getElem_take, List.getElem_set, List.getElem_replicate]
      by_cases hi0 : i = 0
      · subst hi0
        rw [if_neg (by omega), if_neg (by omega), if_pos rfl]
        rw [List.getElem_append, dif_pos (by simp)]
        simp
      · by_cases hi1 : i = 1
        · subst hi1
          rw [if_neg (by omega), if_pos rfl]
          rw [List.getElem_append, dif_pos (by simp)]
          simp
        · by_cases hisep : i = inplen - di.length - 1
          · rw [if_pos hisep.symm]
            rw [List.getElem_append, dif_neg (by simp; omega)]
            rw [List.getElem_append, dif_neg (by simp; omega)]
            simp
          · rw [if_neg (fun he => hisep he.symm), if_neg (by omega),
              if_neg (by omega)]
            rw [List.getElem_append, dif_neg (by simp; omega)]
            rw [List.getElem_append, dif_pos (by simp; omega)]
            simp
  simp [rsaPadBlock, hAB, List.append_assoc]

/-- The DigestInfo emitted for a digest parses back to the SHA-256 OID and
that digest. -/
theorem parseDigestInfo_digestInfoDER (dg : List Nat) :
    parseDigestInfo (digestInfoDER dg) = some (sha256OID, dg) := by
  simp [parseDigestInfo, digestInfoDER, sha256OID]

/-- The three properties of an RSA signing block claimed by C6, for any
digest short enough to fit the modulus. -/
theorem rsaChallenge_props (inplen : Nat) (dg : List Nat)
    (hdg : dg.length + 22 ≤ inplen) :
    rsaPadBlock inplen (digestInfoDER dg) =
      [0x00, 0x01] ++
        List.replicate (inplen - (digestInfoDER dg).length - 3) 0xFF ++
        [0x00] ++ digestInfoDER dg ∧
    (rsaPadBlock inplen (digestInfoDER dg)).length = inplen ∧
    parseDigestInfo (digestInfoDER dg) = some (sha256OID, dg) := by
  have hlen : (digestInfoDER dg).length = 19 + dg.length := by
    simp [digestInfoDER, sha256OID]
    omega
  refine ⟨rsaPadBlock_eq inplen _ (by omega), ?_,
    parseDigestInfo_digestInfoDER dg⟩
  rw [rsaPadBlock_eq inplen _ (by omega)]
  simp [hlen]
  omega

/-- Claim C6: for every RSA sign via `piv_sign` (slot algorithm RSA-1024
or RSA-2048), the block handed to the card has exactly the modulus length
(128 resp. 256 bytes), starts `00 01`, pads with 0xFF, has a single `00`
separator immediately before the DER DigestInfo, and the DigestInfo
parses back to the SHA-256 OID together with the computed digest. -/
theorem claim_C6 (hashFn : SshDigest → List Nat → List Nat)
    (ptAlgs data : List Nat) (prehashRv : Errno) (reqHash : SshDigest)
    (slotAlg inplen : Nat)
    (hslot : slotAlg = PIV_ALG_RSA1024 ∧ inplen = 128 ∨
      slotAlg = PIV_ALG_RSA2048 ∧ inplen = 256) :
    ∃ out : SignOut,
      piv_sign hashFn ptAlgs slotAlg data reqHash prehashRv = some out ∧
      (out.challenge =
        [0x00, 0x01] ++
          List.replicate (inplen -
            (digestInfoDER ((hashFn out.hashalgo data).take out.dglen)).length
              - 3) 0xFF ++
          [0x00] ++ digestInfoDER ((hashFn out.hashalgo data).take out.dglen) ∧
      out.challenge.length = inplen ∧
      parseDigestInfo (digestInfoDER ((hashFn out.hashalgo data).take
          out.dglen)) =
        some (sha256OID, (hashFn out.hashalgo data).take out.dglen)) := by
  rcases hslot with ⟨hs, hi⟩ | ⟨hs, hi⟩ <;> subst hs <;> subst hi <;>
    cases reqHash <;>
      exact ⟨_, rfl, rsaChallenge_props _ _
        (by simp [List.length_take, PIV_ALG_RSA1024, PIV_ALG_RSA2048])⟩

/-- Witness for C6: an RSA-1024 slot with a SHA-256 request and a digest
oracle returning 32 bytes of 0xAB yields a 128-byte block of the claimed
shape whose DigestInfo parses back to the SHA-256 OID and digest. -/
theorem claim_C6_witness :
    ∃ out : SignOut,
      piv_sign (fun _ _ => List.replicate 32 0xAB) [] PIV_ALG_RSA1024 [1]
        SshDigest.sha256 .EOK = some out ∧
      (out.challenge =
        [0x00, 0x01] ++
          List.replicate (128 -
            (digestInfoDER (((fun (_ : SshDigest) (_ : List Nat) =>
              List.replicate 32 0xAB) out.hashalgo [1]).take
                out.dglen)).length - 3) 0xFF ++
          [0x00] ++ digestInfoDER (((fun (_ : SshDigest) (_ : List Nat) =>
            List.replicate 32 0xAB) out.hashalgo [1]).take out.dglen) ∧
      out.challenge.length = 128 ∧
      parseDigestInfo (digestInfoDER (((fun (_ : SshDigest) (_ : List Nat) =>
          List.replicate 32 0xAB) out.hashalgo [1]).take out.dglen)) =
        some (sha256OID, ((fun (_ : SshDigest) (_ : List Nat) =>
          List.replicate 32 0xAB) out.hashalgo [1]).take out.dglen)) :=
  claim_C6 (fun _ _ => List.replicate 32 0xAB) [] [1] .EOK .sha256
    PIV_ALG_RSA1024 128 (Or.inl ⟨rfl, rfl⟩)

end Humboldt
